import Mathlib

/-!
Shallow embedding of `src/functional/progress_tracker.py`
(progress-tracking store of GiveJasonFeedbackWidget).

JSON values are modelled by the inductive `JsonVal` (numbers are modelled as
integers; the claims only involve integer-valued JSON numbers).  Python dicts
are association lists `Dict := List (String × JsonVal)` with first-occurrence
lookup and in-place update, which coincides with Python dict semantics on
duplicate-free key lists.  Filesystem paths are component lists from the root
(`Path := List String`), so `parent` is `dropLast` and the root is `[]`, which
matches `Path("/").parent == Path("/")` for the loop condition in
`find_progress_file`.  The module-global mutable state (`_session_events`),
the filesystem and the clock are threaded explicitly through a `World` record.
-/

inductive JsonVal : Type where
  | null : JsonVal
  | bool : Bool → JsonVal
  | num : Int → JsonVal
  | str : String → JsonVal
  | arr : List JsonVal → JsonVal
  | obj : List (String × JsonVal) → JsonVal

/-- Python dicts with JSON values: association lists keyed by strings. -/
abbrev Dict : Type := List (String × JsonVal)

/-- First-occurrence association-list lookup (`d[k]` / `k in d` / `d.get(k)`). -/
def alookup {α β : Type} [DecidableEq α] : List (α × β) → α → Option β
  | [], _ => none
  | (k₁, v) :: rest, k => if k₁ = k then some v else alookup rest k

/-- Python dict assignment `d[k] = v`: replace in place, or append a new key. -/
def aset {α β : Type} [DecidableEq α] : List (α × β) → α → β → List (α × β)
  | [], k, v => [(k, v)]
  | (k₁, v₁) :: rest, k, v =>
      if k₁ = k then (k, v) :: rest else (k₁, v₁) :: aset rest k v

/-- Python `del d[k]` (removes the first occurrence; a no-op when absent). -/
def aremove {α β : Type} [DecidableEq α] : List (α × β) → α → List (α × β)
  | [], _ => []
  | (k₁, v₁) :: rest, k =>
      if k₁ = k then rest else (k₁, v₁) :: aremove rest k

@[simp] theorem alookup_nil {α β : Type} [DecidableEq α] (k : α) :
    alookup ([] : List (α × β)) k = none := rfl

@[simp] theorem alookup_cons {α β : Type} [DecidableEq α]
    (k₁ k : α) (v : β) (rest : List (α × β)) :
    alookup ((k₁, v) :: rest) k = if k₁ = k then some v else alookup rest k := rfl

@[simp] theorem alookup_aset_self {α β : Type} [DecidableEq α]
    (l : List (α × β)) (k : α) (v : β) :
    alookup (aset l k v) k = some v := by
  induction l with
  | nil => simp [aset]
  | cons hd tl ih =>
      obtain ⟨k₁, v₁⟩ := hd
      by_cases h : k₁ = k <;> simp [aset, h, ih]

theorem alookup_aset_ne {α β : Type} [DecidableEq α]
    (l : List (α × β)) (k k₁ : α) (v : β) (h : k₁ ≠ k) :
    alookup (aset l k₁ v) k = alookup l k := by
  induction l with
  | nil => simp [aset, h]
  | cons hd tl ih =>
      obtain ⟨k₂, v₂⟩ := hd
      by_cases h₂ : k₂ = k₁
      · subst h₂; simp [aset, h]
      · simp [aset, h₂, ih]

theorem alookup_aremove_ne {α β : Type} [DecidableEq α]
    (l : List (α × β)) (k k₁ : α) (h : k₁ ≠ k) :
    alookup (aremove l k₁) k = alookup l k := by
  induction l with
  | nil => simp [aremove]
  | cons hd tl ih =>
      obtain ⟨k₂, v₂⟩ := hd
      by_cases h₂ : k₂ = k₁
      · subst h₂; simp [aremove, h]
      · simp [aremove, h₂, ih]

/-! ### Rendering of JSON values as Python `str()` output

`validate_progress_schema` interpolates the offending version value into its
error message with an f-string, which renders via Python `str()` at the top
level and `repr()` inside containers.  Quote and brace characters are spelled
via character constants. -/

def quoteStr : String := String.singleton '\x27'
def lbraceStr : String := String.singleton '\x7b'
def rbraceStr : String := String.singleton '\x7d'

mutual

/-- Python `repr()` of a JSON-shaped value. -/
def pyRepr : JsonVal → String
  | JsonVal.null => "None"
  | JsonVal.bool true => "True"
  | JsonVal.bool false => "False"
  | JsonVal.num n => toString n
  | JsonVal.str s => quoteStr ++ s ++ quoteStr
  | JsonVal.arr xs => "[" ++ pyReprList xs ++ "]"
  | JsonVal.obj fs => lbraceStr ++ pyReprFields fs ++ rbraceStr

def pyReprList : List JsonVal → String
  | [] => ""
  | [x] => pyRepr x
  | x :: y :: rest => pyRepr x ++ ", " ++ pyReprList (y :: rest)

def pyReprFields : List (String × JsonVal) → String
  | [] => ""
  | [(k, v)] => quoteStr ++ k ++ quoteStr ++ ": " ++ pyRepr v
  | (k, v) :: p :: rest =>
      quoteStr ++ k ++ quoteStr ++ ": " ++ pyRepr v ++ ", " ++ pyReprFields (p :: rest)

end

/-- Python `str()` of a JSON-shaped value (as used by f-string interpolation). -/
def pyToStr : JsonVal → String
  | JsonVal.str s => s
  | v => pyRepr v

/-! ### Schema validation (`validate_progress_schema`) -/

def REQUIRED_TOP_LEVEL : List String := ["version", "project", "currentWork", "lastSession"]

def REQUIRED_CURRENT_WORK : List String := ["type", "plan", "planTask", "debugIssue", "debugPhase"]

def REQUIRED_LAST_SESSION : List String :=
  ["date", "duration_minutes", "summary", "events", "commits", "nextSteps"]

/-- `field in data` for a dict. -/
def dictHas (d : Dict) (k : String) : Bool := (alookup d k).isSome

/-- First field of `fields` missing from `d`, scanning in order
(the fail-fast `for field in REQUIRED_...` loops). -/
def firstMissing (d : Dict) : List String → Option String
  | [] => none
  | f :: rest => if dictHas d f then firstMissing d rest else some f

/-- `data.get(k, {})`, as consumed by the `field not in ...` membership checks:
when the value is a present JSON object its fields are scanned; when the key is
absent the empty dict is scanned.  (A present non-object value makes the Python
`in` operator raise `TypeError` or do substring/element tests: such records lie outside
the domain of JSON records the claims range over, and the model treats them as having no
sub-fields, so they fail the membership checks either way.) -/
def getObjOrEmpty (d : Dict) (k : String) : Dict :=
  match alookup d k with
  | some (JsonVal.obj fs) => fs
  | _ => []

/-- Python `data["version"] != 2` on a JSON-shaped value (`True` for any value
that is not the integer 2). -/
def jsonNeTwo : JsonVal → Bool
  | JsonVal.num n => n != 2
  | _ => true

/-- Embedding of `validate_progress_schema` (progress_tracker.py lines 23-51):
raises `ProgressValidationError` = returns `Except.error` with the message. -/
def validate_progress_schema (data : Dict) : Except String Unit :=
  match alookup data "version" with
  | none => Except.error "Missing required field: version"
  | some v =>
    if jsonNeTwo v then
      Except.error ("Expected version 2, got " ++ pyToStr v)
    else
      match firstMissing data REQUIRED_TOP_LEVEL with
      | some f => Except.error ("Missing required field: " ++ f)
      | none =>
        match firstMissing (getObjOrEmpty data "currentWork") REQUIRED_CURRENT_WORK with
        | some f => Except.error ("Missing currentWork field: " ++ f)
        | none =>
          match firstMissing (getObjOrEmpty data "lastSession") REQUIRED_LAST_SESSION with
          | some f => Except.error ("Missing lastSession field: " ++ f)
          | none => Except.ok ()

/-! ### Events and work types -/

inductive EventType : Type where
  | SESSION_START | SESSION_END | CHECKPOINT
  | PLAN_STARTED | PLAN_TASK_COMPLETED
  | DEBUG_STARTED | DEBUG_ROOT_CAUSE | DEBUG_RESOLVED
  | FEATURE_STARTED | FEATURE_COMPLETED
  deriving DecidableEq

/-- The `.value` string of each `EventType` member. -/
def EventType.value : EventType → String
  | SESSION_START => "session_start"
  | SESSION_END => "session_end"
  | CHECKPOINT => "checkpoint"
  | PLAN_STARTED => "plan_started"
  | PLAN_TASK_COMPLETED => "plan_task_completed"
  | DEBUG_STARTED => "debug_started"
  | DEBUG_ROOT_CAUSE => "debug_root_cause"
  | DEBUG_RESOLVED => "debug_resolved"
  | FEATURE_STARTED => "feature_started"
  | FEATURE_COMPLETED => "feature_completed"

/-- `ProgressEvent` dataclass. -/
structure ProgressEvent : Type where
  type : String
  timestamp : String
  data : Dict

/-- `ProgressEvent.to_dict`: a dict of type and timestamp, then
`result.update(self.data)` (later keys overwrite). -/
def ProgressEvent.to_dict (e : ProgressEvent) : Dict :=
  e.data.foldl (fun acc kv => aset acc kv.1 kv.2)
    [("type", JsonVal.str e.type), ("timestamp", JsonVal.str e.timestamp)]

/-- `create_event`: the current UTC time is passed in explicitly as the
already-rendered string `now` (modelling `datetime.utcnow().isoformat()+"Z"`). -/
def create_event (now : String) (event_type : EventType) (kwargs : Dict) : ProgressEvent :=
  { type := event_type.value, timestamp := now, data := kwargs }

inductive WorkType : Type where
  | GENERAL | PLAN | DEBUG | FEATURE
  deriving DecidableEq

/-- The `.value` string of each `WorkType` member. -/
def WorkType.value : WorkType → String
  | GENERAL => "general"
  | PLAN => "plan"
  | DEBUG => "debug"
  | FEATURE => "feature"

/-! ### World state

Filesystem paths are lists of components below the root; `parent` is
`List.dropLast` and the root `[]` is its own parent, matching the
`current != current.parent` loop guard on absolute `Path`s.  The filesystem
maps paths of existing entries to their JSON-object content (the `.git`
marker directory is an entry whose content is never read).  `now` and `today`
are the process clock, frozen for the duration of one operation. -/

abbrev FsPath : Type := List String

/-- `Path.name` (`""` for the root, as in Python). -/
def pathName (p : FsPath) : String := p.getLast?.getD ""

/-- The whole mutable state an operation touches: the filesystem, the
module-global `_session_events` dict, and the clock. -/
structure World : Type where
  fs : List (FsPath × Dict)
  sessionEvents : List (String × List ProgressEvent)
  now : String
  today : String

/-- `create_empty_progress` (lines 120-143). -/
def create_empty_progress (now today project_name : String) : Dict :=
  [("version", JsonVal.num 2),
   ("lastUpdated", JsonVal.str now),
   ("project", JsonVal.str project_name),
   ("currentWork", JsonVal.obj
     [("type", JsonVal.str "general"),
      ("plan", JsonVal.null),
      ("planTask", JsonVal.null),
      ("debugIssue", JsonVal.null),
      ("debugPhase", JsonVal.null)]),
   ("lastSession", JsonVal.obj
     [("date", JsonVal.str today),
      ("duration_minutes", JsonVal.num 0),
      ("summary", JsonVal.str ""),
      ("events", JsonVal.arr []),
      ("commits", JsonVal.arr []),
      ("nextSteps", JsonVal.arr [])]),
   ("recentSessions", JsonVal.arr []),
   ("knownIssues", JsonVal.arr [])]

/-- `_load_progress` (lines 146-152): load the file, creating it (with the
project name taken from the containing directory) when it does not exist. -/
def _load_progress (w : World) (path : FsPath) : World × Dict :=
  match alookup w.fs path with
  | none =>
      let data := create_empty_progress w.now w.today (pathName path.dropLast)
      ({ w with fs := aset w.fs path data }, data)
  | some d => (w, d)

/-- `_save_progress` (lines 155-158): stamp `lastUpdated`, overwrite the file. -/
def _save_progress (w : World) (path : FsPath) (data : Dict) : World :=
  { w with fs := aset w.fs path (aset data "lastUpdated" (JsonVal.str w.now)) }

/-- `start_session` (lines 165-170).  The statement
`data["currentWork"]["type"] = "general"` requires the loaded record to hold a
dict at `currentWork` (otherwise Python raises `KeyError`/`TypeError`), hence
the `Option` result: `none` models that uncaught exception. -/
def start_session (w : World) (path : FsPath) (session_id : String) : Option World :=
  let wd := _load_progress w path
  match alookup wd.2 "currentWork" with
  | some (JsonVal.obj cw) =>
      let data := aset wd.2 "currentWork" (JsonVal.obj (aset cw "type" (JsonVal.str "general")))
      let buf := [create_event wd.1.now EventType.SESSION_START []]
      let w₂ := { wd.1 with sessionEvents := aset wd.1.sessionEvents session_id buf }
      some (_save_progress w₂ path data)
  | _ => none

/-- The dict literal `end_session` assigns to `data["lastSession"]`
(lines 189-196): the current date, the passed duration, summary, the serialized
event buffer, commits, and `next_steps or []`. -/
def lastSessionDict (today : String) (duration_minutes : Int) (summary : String)
    (events : List ProgressEvent) (commits : List JsonVal)
    (next_steps : Option (List String)) : Dict :=
  [("date", JsonVal.str today),
   ("duration_minutes", JsonVal.num duration_minutes),
   ("summary", JsonVal.str summary),
   ("events", JsonVal.arr (events.map (fun e => JsonVal.obj e.to_dict))),
   ("commits", JsonVal.arr commits),
   ("nextSteps", JsonVal.arr ((next_steps.getD []).map JsonVal.str))]

/-- The dict literal `end_session` assigns to `data["currentWork"]`
(lines 199-205): the cleared "general" state with all payload fields null. -/
def generalWorkDict : Dict :=
  [("type", JsonVal.str "general"),
   ("plan", JsonVal.null),
   ("planTask", JsonVal.null),
   ("debugIssue", JsonVal.null),
   ("debugPhase", JsonVal.null)]

/-- `end_session` (lines 173-211). -/
def end_session (w : World) (path : FsPath) (session_id : String)
    (duration_minutes : Int) (summary : String) (commits : List JsonVal)
    (next_steps : Option (List String)) : World :=
  let wd := _load_progress w path
  let events := ((alookup wd.1.sessionEvents session_id).getD []) ++
    [create_event wd.1.now EventType.SESSION_END [("duration", JsonVal.num duration_minutes)]]
  let data := aset wd.2 "lastSession" (JsonVal.obj
    (lastSessionDict wd.1.today duration_minutes summary events commits next_steps))
  let data := aset data "currentWork" (JsonVal.obj generalWorkDict)
  let w₂ := { wd.1 with sessionEvents := aremove wd.1.sessionEvents session_id }
  _save_progress w₂ path data

/-- `add_event` (lines 214-218): append to the in-memory buffer, creating it
lazily; `path` is accepted but never used. -/
def add_event (w : World) (path : FsPath) (session_id : String)
    (event_type : EventType) (kwargs : Dict) : World :=
  let buf := (alookup w.sessionEvents session_id).getD [] ++ [create_event w.now event_type kwargs]
  { w with sessionEvents := aset w.sessionEvents session_id buf }

/-- `get_current_work` (lines 221-224). -/
def get_current_work (w : World) (path : FsPath) : World × JsonVal :=
  let wd := _load_progress w path
  (wd.1, (alookup wd.2 "currentWork").getD (JsonVal.obj []))

/-- Python `None`-able string argument rendered into JSON. -/
def optStr (o : Option String) : JsonVal := (o.map JsonVal.str).getD JsonVal.null

/-- Python `None`-able int argument rendered into JSON. -/
def optInt (o : Option Int) : JsonVal := (o.map JsonVal.num).getD JsonVal.null

/-- `set_current_work` (lines 227-246). -/
def set_current_work (w : World) (path : FsPath) (work_type : WorkType)
    (plan : Option String) (plan_task : Option Int) (debug_issue : Option String)
    (debug_phase : Option String) (feature_id : Option String) : World :=
  let wd := _load_progress w path
  let data := aset wd.2 "currentWork" (JsonVal.obj
    [("type", JsonVal.str work_type.value),
     ("plan", optStr plan),
     ("planTask", optInt plan_task),
     ("debugIssue", optStr debug_issue),
     ("debugPhase", optStr debug_phase),
     ("featureId", optStr feature_id)])
  _save_progress wd.1 path data

def PROGRESS_FILENAME : String := "project-progress.json"

/-- `path.exists()`. -/
def fsExists (fs : List (FsPath × Dict)) (p : FsPath) : Bool := (alookup fs p).isSome

/-- The `while current != current.parent` walk of `find_progress_file`
(lines 276-286): check `current / PROGRESS_FILENAME`, stop at a `.git`
marker, else move to the parent.  The root `[]` is its own parent, so the
loop body never runs there. -/
def findLoop (fs : List (FsPath × Dict)) : FsPath → Option FsPath
  | [] => none
  | c :: cs =>
      if fsExists fs ((c :: cs) ++ [PROGRESS_FILENAME]) then
        some ((c :: cs) ++ [PROGRESS_FILENAME])
      else if fsExists fs ((c :: cs) ++ [".git"]) then none
      else findLoop fs (c :: cs).dropLast
termination_by p => p.length
decreasing_by simp [List.length_dropLast]

/-- `find_progress_file` (lines 252-296). -/
def find_progress_file (w : World) (cwd : FsPath) (create_if_missing : Bool) :
    World × Option FsPath :=
  if fsExists w.fs (cwd ++ [PROGRESS_FILENAME]) then (w, some (cwd ++ [PROGRESS_FILENAME]))
  else match findLoop w.fs cwd with
  | some p => (w, some p)
  | none =>
      if create_if_missing then
        let progress_path := cwd ++ [PROGRESS_FILENAME]
        let data := create_empty_progress w.now w.today (pathName cwd)
        ({ w with fs := aset w.fs progress_path data }, some progress_path)
      else (w, none)

/-! ### C1: schema validation -/

theorem jsonNeTwo_eq_false_iff (v : JsonVal) : jsonNeTwo v = false ↔ v = JsonVal.num 2 := by
  cases v <;> simp [jsonNeTwo]

@[simp] theorem dictHas_nil (k : String) : dictHas [] k = false := rfl

theorem firstMissing_eq_none_iff (d : Dict) (l : List String) :
    firstMissing d l = none ↔ ∀ k ∈ l, dictHas d k = true := by
  induction l with
  | nil => simp [firstMissing]
  | cons f rest ih =>
      by_cases h : dictHas d f = true
      · simp [firstMissing, h, ih]
      · simp only [firstMissing, h, if_false, Bool.false_eq_true]
        constructor
        · intro hsome; cases hsome
        · intro hall; exact absurd (hall f (by simp)) h

/-- For a nonempty required-field list, "all sub-fields present in
`data.get(k, {})`" is the same as "`data[k]` is an object holding all the
sub-fields". -/
theorem subOk_iff (d : Dict) (k : String) (f₀ : String) (l : List String) (hf : f₀ ∈ l) :
    ((∀ s ∈ l, dictHas (getObjOrEmpty d k) s = true) ↔
      ∃ fs, alookup d k = some (JsonVal.obj fs) ∧ ∀ s ∈ l, dictHas fs s = true) := by
  unfold getObjOrEmpty
  cases h : alookup d k with
  | none =>
      simp only [h]
      constructor
      · intro hall; exact absurd (hall f₀ hf) (by simp)
      · rintro ⟨fs, hfs, -⟩; cases hfs
  | some v =>
      cases v with
      | obj fs => simp [h]
      | null =>
          simp only [h]
          constructor
          · intro hall; exact absurd (hall f₀ hf) (by simp)
          · rintro ⟨fs, hfs, -⟩; cases hfs
      | bool b =>
          simp only [h]
          constructor
          · intro hall; exact absurd (hall f₀ hf) (by simp)
          · rintro ⟨fs, hfs, -⟩; cases hfs
      | num n =>
          simp only [h]
          constructor
          · intro hall; exact absurd (hall f₀ hf) (by simp)
          · rintro ⟨fs, hfs, -⟩; cases hfs
      | str s =>
          simp only [h]
          constructor
          · intro hall; exact absurd (hall f₀ hf) (by simp)
          · rintro ⟨fs, hfs, -⟩; cases hfs
      | arr xs =>
          simp only [h]
          constructor
          · intro hall; exact absurd (hall f₀ hf) (by simp)
          · rintro ⟨fs, hfs, -⟩; cases hfs

/-- The success condition of the claim, stated in the words of the spec: `version`
present and equal to 2; every top-level required key present; every required
`currentWork` sub-key present; every required `lastSession` sub-key present
(`featureId` is nowhere required). -/
def specSchemaOk (d : Dict) : Prop :=
  alookup d "version" = some (JsonVal.num 2) ∧
  (∀ k ∈ REQUIRED_TOP_LEVEL, dictHas d k = true) ∧
  (∃ cw, alookup d "currentWork" = some (JsonVal.obj cw) ∧
    ∀ k ∈ REQUIRED_CURRENT_WORK, dictHas cw k = true) ∧
  (∃ ls, alookup d "lastSession" = some (JsonVal.obj ls) ∧
    ∀ k ∈ REQUIRED_LAST_SESSION, dictHas ls k = true)

theorem validate_ok_iff (d : Dict) :
    validate_progress_schema d = Except.ok () ↔ specSchemaOk d := by
  unfold validate_progress_schema specSchemaOk
  cases hv : alookup d "version" with
  | none => simp
  | some v =>
    by_cases h2 : jsonNeTwo v = true
    · simp only [h2, if_true]
      constructor
      · intro hcontra; cases hcontra
      · rintro ⟨hv2, -⟩
        injection hv2 with hv2
        rw [← jsonNeTwo_eq_false_iff] at hv2
        rw [h2] at hv2
        cases hv2
    · rw [Bool.not_eq_true] at h2
      have hv2 := (jsonNeTwo_eq_false_iff v).mp h2
      subst hv2
      simp only [h2, Bool.false_eq_true, if_false]
      cases hm : firstMissing d REQUIRED_TOP_LEVEL with
      | some f =>
          constructor
          · intro hcontra; cases hcontra
          · rintro ⟨-, hall, -, -⟩
            rw [← firstMissing_eq_none_iff, hm] at hall
            cases hall
      | none =>
          cases hcw : firstMissing (getObjOrEmpty d "currentWork") REQUIRED_CURRENT_WORK with
          | some f =>
              constructor
              · intro hcontra; cases hcontra
              · rintro ⟨-, -, hex, -⟩
                have hall := (subOk_iff d "currentWork" "type" REQUIRED_CURRENT_WORK
                  (by simp [REQUIRED_CURRENT_WORK])).mpr hex
                rw [← firstMissing_eq_none_iff, hcw] at hall
                cases hall
          | none =>
              cases hls : firstMissing (getObjOrEmpty d "lastSession") REQUIRED_LAST_SESSION with
              | some f =>
                  constructor
                  · intro hcontra; cases hcontra
                  · rintro ⟨-, -, -, hex⟩
                    have hall := (subOk_iff d "lastSession" "date" REQUIRED_LAST_SESSION
                      (by simp [REQUIRED_LAST_SESSION])).mpr hex
                    rw [← firstMissing_eq_none_iff, hls] at hall
                    cases hall
              | none =>
                  have hB := (firstMissing_eq_none_iff d REQUIRED_TOP_LEVEL).mp hm
                  have hC := (subOk_iff d "currentWork" "type" REQUIRED_CURRENT_WORK
                    (by simp [REQUIRED_CURRENT_WORK])).mp
                    ((firstMissing_eq_none_iff _ REQUIRED_CURRENT_WORK).mp hcw)
                  have hD := (subOk_iff d "lastSession" "date" REQUIRED_LAST_SESSION
                    (by simp [REQUIRED_LAST_SESSION])).mp
                    ((firstMissing_eq_none_iff _ REQUIRED_LAST_SESSION).mp hls)
                  constructor
                  · intro _; exact ⟨by trivial, hB, hC, hD⟩
                  · intro _; rfl

/-- C1: `validate_progress_schema` raises (returns an error) exactly when the
record misses a required field or has `version != 2`: success holds iff
`version` is present and equals 2, every key of `REQUIRED_TOP_LEVEL` is
present, every key of `REQUIRED_CURRENT_WORK` is present in `currentWork`, and
every key of `REQUIRED_LAST_SESSION` is present in `lastSession` (`featureId`
is never required).  It fails fast in check order, naming the offending field:
a missing or non-2 `version` yields the version message (mentioning
"version 2"), and the first missing field of each scan yields the message
naming that field. -/
theorem C1_validate_schema (d : Dict) :
    (validate_progress_schema d = Except.ok () ↔ specSchemaOk d) ∧
    (alookup d "version" = none →
      validate_progress_schema d = Except.error "Missing required field: version") ∧
    (∀ v, alookup d "version" = some v → v ≠ JsonVal.num 2 →
      validate_progress_schema d = Except.error ("Expected version 2, got " ++ pyToStr v)) ∧
    (∀ f, alookup d "version" = some (JsonVal.num 2) →
      firstMissing d REQUIRED_TOP_LEVEL = some f →
      validate_progress_schema d = Except.error ("Missing required field: " ++ f)) ∧
    (∀ f, alookup d "version" = some (JsonVal.num 2) →
      firstMissing d REQUIRED_TOP_LEVEL = none →
      firstMissing (getObjOrEmpty d "currentWork") REQUIRED_CURRENT_WORK = some f →
      validate_progress_schema d = Except.error ("Missing currentWork field: " ++ f)) ∧
    (∀ f, alookup d "version" = some (JsonVal.num 2) →
      firstMissing d REQUIRED_TOP_LEVEL = none →
      firstMissing (getObjOrEmpty d "currentWork") REQUIRED_CURRENT_WORK = none →
      firstMissing (getObjOrEmpty d "lastSession") REQUIRED_LAST_SESSION = some f →
      validate_progress_schema d = Except.error ("Missing lastSession field: " ++ f)) := by
  have hTwo : jsonNeTwo (JsonVal.num 2) = false := by decide
  refine ⟨validate_ok_iff d, ?_, ?_, ?_, ?_, ?_⟩
  · intro h; simp [validate_progress_schema, h]
  · intro v hv hne
    have h2 : jsonNeTwo v = true := by
      rcases Bool.eq_false_or_eq_true (jsonNeTwo v) with h | h
      · exact h
      · exact absurd ((jsonNeTwo_eq_false_iff v).mp h) hne
    simp [validate_progress_schema, hv, h2]
  · intro f hv hm
    simp [validate_progress_schema, hv, hTwo, hm]
  · intro f hv hm hcw
    simp [validate_progress_schema, hv, hTwo, hm, hcw]
  · intro f hv hm hcw hls
    simp [validate_progress_schema, hv, hTwo, hm, hcw, hls]

/-- Witness for C1: a fully-populated default record validates; a record whose
version is 3 fails with the "version 2" message; a record missing
`lastSession` fails naming it. -/
theorem C1_validate_schema_witness :
    validate_progress_schema (create_empty_progress "T" "D" "proj") = Except.ok () ∧
    validate_progress_schema [("version", JsonVal.num 3)] =
      Except.error ("Expected version 2, got " ++ pyToStr (JsonVal.num 3)) ∧
    validate_progress_schema
        [("version", JsonVal.num 2), ("project", JsonVal.str "p"),
         ("currentWork", JsonVal.obj
           [("type", JsonVal.str "general"), ("plan", JsonVal.null),
            ("planTask", JsonVal.null), ("debugIssue", JsonVal.null),
            ("debugPhase", JsonVal.null)])] =
      Except.error ("Missing required field: " ++ "lastSession") := by
  refine ⟨?_, ?_, ?_⟩
  · exact (C1_validate_schema _).1.mpr
      ⟨rfl, by decide, ⟨_, rfl, by decide⟩, ⟨_, rfl, by decide⟩⟩
  · exact (C1_validate_schema _).2.2.1 (JsonVal.num 3) rfl (by simp)
  · exact (C1_validate_schema _).2.2.2.1 "lastSession" rfl (by decide)

/-! ### Helper facts about loading -/

@[simp] theorem load_now (w : World) (path : FsPath) :
    (_load_progress w path).1.now = w.now := by
  cases h : alookup w.fs path <;> simp [_load_progress, h]

@[simp] theorem load_today (w : World) (path : FsPath) :
    (_load_progress w path).1.today = w.today := by
  cases h : alookup w.fs path <;> simp [_load_progress, h]

@[simp] theorem load_sessionEvents (w : World) (path : FsPath) :
    (_load_progress w path).1.sessionEvents = w.sessionEvents := by
  cases h : alookup w.fs path <;> simp [_load_progress, h]

/-- After a load, the file holds exactly the returned data (it is created when
it was missing). -/
theorem load_reads_back (w : World) (path : FsPath) :
    alookup (_load_progress w path).1.fs path = some (_load_progress w path).2 := by
  cases h : alookup w.fs path <;> simp [_load_progress, h]

/-! ### C8: `add_event` touches only the one in-memory buffer -/

/-- C8: `add_event` appends exactly one event (built from the given type and
payload) to the in-memory buffer of `session_id`, creating the buffer lazily
when `start_session` was never called for it; the buffer of every other session is
untouched, and the filesystem — in particular the file at `path` — is
completely unchanged. -/
theorem C8_add_event_frame (w : World) (path : FsPath) (sid : String)
    (t : EventType) (kwargs : Dict) :
    (add_event w path sid t kwargs).fs = w.fs ∧
    alookup (add_event w path sid t kwargs).sessionEvents sid =
      some ((alookup w.sessionEvents sid).getD [] ++ [create_event w.now t kwargs]) ∧
    (∀ sid₂, sid₂ ≠ sid →
      alookup (add_event w path sid t kwargs).sessionEvents sid₂ =
        alookup w.sessionEvents sid₂) := by
  refine ⟨rfl, ?_, ?_⟩
  · simp [add_event]
  · intro sid₂ hne
    simp only [add_event]
    exact alookup_aset_ne _ _ _ _ (Ne.symm hne)

/-- Witness for C8 at a concrete world: the filesystem entry list is unchanged
and the buffer of a sibling session stays absent. -/
theorem C8_add_event_frame_witness :
    (add_event ⟨[], [], "T", "D"⟩ ["p"] "s1" EventType.CHECKPOINT []).fs = [] ∧
    alookup (add_event ⟨[], [], "T", "D"⟩ ["p"] "s1"
      EventType.CHECKPOINT []).sessionEvents "s2" = none := by
  constructor
  · exact (C8_add_event_frame ⟨[], [], "T", "D"⟩ ["p"] "s1" EventType.CHECKPOINT []).1
  · have h := (C8_add_event_frame ⟨[], [], "T", "D"⟩ ["p"] "s1"
      EventType.CHECKPOINT []).2.2 "s2" (by decide)
    simpa using h

/-! ### C4: load/save round trip -/

/-- C4: with no intervening mutation, `_save_progress` after `_load_progress`
rewrites the record at `path` with only `lastUpdated` restamped: the stored
dict becomes `aset d "lastUpdated" ...`, and looking up any other key — in
particular `version`, `project`, `currentWork`, `lastSession`,
`recentSessions` and `knownIssues` — gives exactly what the original record
held. -/
theorem C4_load_save_roundtrip (w : World) (path : FsPath) (d : Dict)
    (h : alookup w.fs path = some d) :
    alookup (_save_progress (_load_progress w path).1 path
        (_load_progress w path).2).fs path =
      some (aset d "lastUpdated" (JsonVal.str w.now)) ∧
    (∀ k, k ≠ "lastUpdated" →
      alookup (aset d "lastUpdated" (JsonVal.str w.now)) k = alookup d k) := by
  constructor
  · simp [_load_progress, _save_progress, h]
  · intro k hk
    exact alookup_aset_ne _ _ _ _ (Ne.symm hk)

/-- Witness for C4 at a one-record filesystem: the `project` field survives
the load/save cycle. -/
theorem C4_load_save_roundtrip_witness :
    alookup (_save_progress
        (_load_progress ⟨[(["a", "f.json"], [("project", JsonVal.str "a")])], [], "T", "D"⟩
          ["a", "f.json"]).1
        ["a", "f.json"]
        (_load_progress ⟨[(["a", "f.json"], [("project", JsonVal.str "a")])], [], "T", "D"⟩
          ["a", "f.json"]).2).fs ["a", "f.json"] =
      some (aset [("project", JsonVal.str "a")] "lastUpdated" (JsonVal.str "T")) ∧
    alookup (aset [("project", JsonVal.str "a")] "lastUpdated" (JsonVal.str "T")) "project" =
      alookup [("project", JsonVal.str "a")] "project" := by
  constructor
  · exact (C4_load_save_roundtrip ⟨[(["a", "f.json"], [("project", JsonVal.str "a")])], [], "T", "D"⟩
      ["a", "f.json"] [("project", JsonVal.str "a")] rfl).1
  · exact (C4_load_save_roundtrip ⟨[(["a", "f.json"], [("project", JsonVal.str "a")])], [], "T", "D"⟩
      ["a", "f.json"] [("project", JsonVal.str "a")] rfl).2 "project" (by decide)

/-! ### C5: load-or-create, once -/

/-- C5: loading a path with no backing file synthesizes the default record —
version 2, project named after the containing directory, `currentWork` of type
"general" — and persists it immediately instead of reporting "not found"; a
second load finds the file, returns exactly the content the first call
created, and leaves the filesystem (and so the file) completely unchanged. -/
theorem C5_load_creates_once (w : World) (path : FsPath)
    (h : alookup w.fs path = none) :
    (_load_progress w path).2 =
      create_empty_progress w.now w.today (pathName path.dropLast) ∧
    alookup (_load_progress w path).1.fs path = some (_load_progress w path).2 ∧
    alookup (_load_progress w path).2 "version" = some (JsonVal.num 2) ∧
    alookup (_load_progress w path).2 "project" =
      some (JsonVal.str (pathName path.dropLast)) ∧
    (∃ cw, alookup (_load_progress w path).2 "currentWork" = some (JsonVal.obj cw) ∧
      alookup cw "type" = some (JsonVal.str "general")) ∧
    _load_progress (_load_progress w path).1 path =
      ((_load_progress w path).1, (_load_progress w path).2) := by
  refine ⟨?_, load_reads_back w path, ?_, ?_, ?_, ?_⟩
  · simp [_load_progress, h]
  · simp [_load_progress, h, create_empty_progress]
  · simp [_load_progress, h, create_empty_progress]
  · refine ⟨[("type", JsonVal.str "general"), ("plan", JsonVal.null),
      ("planTask", JsonVal.null), ("debugIssue", JsonVal.null),
      ("debugPhase", JsonVal.null)], ?_, rfl⟩
    simp [_load_progress, h, create_empty_progress]
  · have hb := load_reads_back w path
    simp only [_load_progress, h] at hb ⊢
    simp [hb]

/-- Witness for C5 on an empty filesystem. -/
theorem C5_load_creates_once_witness :
    (_load_progress ⟨[], [], "T", "D"⟩ ["proj", "progress.json"]).2 =
      create_empty_progress "T" "D" "proj" ∧
    _load_progress (_load_progress ⟨[], [], "T", "D"⟩ ["proj", "progress.json"]).1
        ["proj", "progress.json"] =
      ((_load_progress ⟨[], [], "T", "D"⟩ ["proj", "progress.json"]).1,
       (_load_progress ⟨[], [], "T", "D"⟩ ["proj", "progress.json"]).2) := by
  have h := C5_load_creates_once ⟨[], [], "T", "D"⟩ ["proj", "progress.json"] rfl
  exact ⟨h.1, h.2.2.2.2.2⟩

/-! ### C7: `set_current_work` overwrites wholesale -/

/-- C7: `set_current_work` replaces `currentWork` wholesale — whatever the
record held before, the persisted `currentWork` is exactly the six-key object
built from the call arguments, with the fields of the other work types (passed as
their `None` defaults) explicitly null; in particular after setting plan work
`plan="p.md"`, `planTask=2`, `get_current_work` reads back type `"plan"`,
plan `"p.md"`, planTask `2`, and null `debugIssue` and `debugPhase`. -/
theorem C7_set_current_work (w : World) (path : FsPath) (wt : WorkType)
    (plan : Option String) (pt : Option Int) (di dp fi : Option String) :
    (∃ d, alookup (set_current_work w path wt plan pt di dp fi).fs path = some d ∧
      alookup d "currentWork" = some (JsonVal.obj
        [("type", JsonVal.str wt.value), ("plan", optStr plan),
         ("planTask", optInt pt), ("debugIssue", optStr di),
         ("debugPhase", optStr dp), ("featureId", optStr fi)])) ∧
    (get_current_work
        (set_current_work w path WorkType.PLAN (some "p.md") (some 2) none none none)
        path).2 =
      JsonVal.obj
        [("type", JsonVal.str "plan"), ("plan", JsonVal.str "p.md"),
         ("planTask", JsonVal.num 2), ("debugIssue", JsonVal.null),
         ("debugPhase", JsonVal.null), ("featureId", JsonVal.null)] := by
  constructor
  · have hfs : alookup (set_current_work w path wt plan pt di dp fi).fs path =
        some (aset (aset (_load_progress w path).2 "currentWork" (JsonVal.obj
          [("type", JsonVal.str wt.value), ("plan", optStr plan),
           ("planTask", optInt pt), ("debugIssue", optStr di),
           ("debugPhase", optStr dp), ("featureId", optStr fi)]))
          "lastUpdated" (JsonVal.str w.now)) := by
      simp [set_current_work, _save_progress]
    refine ⟨_, hfs, ?_⟩
    rw [alookup_aset_ne _ _ _ _ (by decide)]
    exact alookup_aset_self _ _ _
  · simp only [get_current_work, set_current_work, _save_progress, _load_progress,
      alookup_aset_self]
    rw [alookup_aset_ne _ _ _ _ (by decide), alookup_aset_self]
    rfl

/-! ### C10: `get_current_work` creates the file when missing -/

/-- C10: on a path with no backing file, `get_current_work` is not
side-effect free: it creates and persists the default record (the filesystem
gains that entry) and returns the default `currentWork`
(type "general", all payload fields null); on an existing file it returns
the `currentWork` of that record and modifies nothing. -/
theorem C10_get_current_work_effects (w : World) (path : FsPath) :
    (alookup w.fs path = none →
      (get_current_work w path).1.fs =
        aset w.fs path (create_empty_progress w.now w.today (pathName path.dropLast)) ∧
      alookup (get_current_work w path).1.fs path =
        some (create_empty_progress w.now w.today (pathName path.dropLast)) ∧
      (get_current_work w path).2 = JsonVal.obj
        [("type", JsonVal.str "general"), ("plan", JsonVal.null),
         ("planTask", JsonVal.null), ("debugIssue", JsonVal.null),
         ("debugPhase", JsonVal.null)]) ∧
    (∀ d, alookup w.fs path = some d →
      get_current_work w path = (w, (alookup d "currentWork").getD (JsonVal.obj []))) := by
  constructor
  · intro h
    refine ⟨?_, ?_, ?_⟩
    · simp [get_current_work, _load_progress, h]
    · simp [get_current_work, _load_progress, h]
    · simp [get_current_work, _load_progress, h, create_empty_progress]
  · intro d h
    simp [get_current_work, _load_progress, h]

/-- Witness for C10: a missing file is created with the default `currentWork`;
an existing file is read without modification. -/
theorem C10_get_current_work_effects_witness :
    (get_current_work ⟨[], [], "T", "D"⟩ ["proj", "f.json"]).2 = JsonVal.obj
      [("type", JsonVal.str "general"), ("plan", JsonVal.null),
       ("planTask", JsonVal.null), ("debugIssue", JsonVal.null),
       ("debugPhase", JsonVal.null)] ∧
    get_current_work ⟨[(["proj", "f.json"], [("currentWork", JsonVal.str "x")])], [], "T", "D"⟩
        ["proj", "f.json"] =
      (⟨[(["proj", "f.json"], [("currentWork", JsonVal.str "x")])], [], "T", "D"⟩,
       JsonVal.str "x") := by
  constructor
  · exact ((C10_get_current_work_effects ⟨[], [], "T", "D"⟩ ["proj", "f.json"]).1 rfl).2.2
  · have h := (C10_get_current_work_effects
      ⟨[(["proj", "f.json"], [("currentWork", JsonVal.str "x")])], [], "T", "D"⟩
      ["proj", "f.json"]).2 [("currentWork", JsonVal.str "x")] rfl
    simpa using h

/-! ### C9: `end_session` without `start_session` -/

/-- C9: calling `end_session` for a session id that was never started (its
buffer is absent) succeeds, and the flushed `lastSession.events` holds exactly
one event — the `session_end` event carrying the duration — with no
`session_start` event. -/
theorem C9_end_session_instant (w : World) (path : FsPath) (sid : String)
    (dur : Int) (su : String) (commits : List JsonVal) (ns : Option (List String))
    (h : alookup w.sessionEvents sid = none) :
    ∃ d, alookup (end_session w path sid dur su commits ns).fs path = some d ∧
      alookup d "lastSession" = some (JsonVal.obj
        [("date", JsonVal.str w.today),
         ("duration_minutes", JsonVal.num dur),
         ("summary", JsonVal.str su),
         ("events", JsonVal.arr
           [JsonVal.obj [("type", JsonVal.str "session_end"),
             ("timestamp", JsonVal.str w.now), ("duration", JsonVal.num dur)]]),
         ("commits", JsonVal.arr commits),
         ("nextSteps", JsonVal.arr ((ns.getD []).map JsonVal.str))]) := by
  have hfs : alookup (end_session w path sid dur su commits ns).fs path =
      some (aset (aset (aset (_load_progress w path).2 "lastSession" (JsonVal.obj
        [("date", JsonVal.str w.today),
         ("duration_minutes", JsonVal.num dur),
         ("summary", JsonVal.str su),
         ("events", JsonVal.arr
           [JsonVal.obj [("type", JsonVal.str "session_end"),
             ("timestamp", JsonVal.str w.now), ("duration", JsonVal.num dur)]]),
         ("commits", JsonVal.arr commits),
         ("nextSteps", JsonVal.arr ((ns.getD []).map JsonVal.str))]))
        "currentWork" (JsonVal.obj
          [("type", JsonVal.str "general"), ("plan", JsonVal.null),
           ("planTask", JsonVal.null), ("debugIssue", JsonVal.null),
           ("debugPhase", JsonVal.null)]))
        "lastUpdated" (JsonVal.str w.now)) := by
    simp [end_session, _save_progress, h, create_event, ProgressEvent.to_dict,
      EventType.value, aset, lastSessionDict, generalWorkDict]
  refine ⟨_, hfs, ?_⟩
  rw [alookup_aset_ne _ _ _ _ (by decide), alookup_aset_ne _ _ _ _ (by decide)]
  exact alookup_aset_self _ _ _

/-- Witness for C9 on an empty world. -/
theorem C9_end_session_instant_witness :
    ∃ d, alookup (end_session ⟨[], [], "T", "D"⟩ ["p", "f.json"] "s" 5 "done" []
        none).fs ["p", "f.json"] = some d ∧
      alookup d "lastSession" = some (JsonVal.obj
        [("date", JsonVal.str "D"),
         ("duration_minutes", JsonVal.num 5),
         ("summary", JsonVal.str "done"),
         ("events", JsonVal.arr
           [JsonVal.obj [("type", JsonVal.str "session_end"),
             ("timestamp", JsonVal.str "T"), ("duration", JsonVal.num 5)]]),
         ("commits", JsonVal.arr []),
         ("nextSteps", JsonVal.arr [])]) :=
  C9_end_session_instant ⟨[], [], "T", "D"⟩ ["p", "f.json"] "s" 5 "done" [] none rfl

/-! ### C2: start/end session on a fresh record -/

/-- Whatever the prior state, `end_session` persists a record whose
`lastSession` carries the given duration, summary and commits, and whose
`currentWork` is reset to the all-null "general" state. -/
theorem end_session_pins (w : World) (path : FsPath) (sid : String)
    (dur : Int) (su : String) (commits : List JsonVal) (ns : Option (List String)) :
    ∃ d, alookup (end_session w path sid dur su commits ns).fs path = some d ∧
      (∃ ls, alookup d "lastSession" = some (JsonVal.obj ls) ∧
        alookup ls "duration_minutes" = some (JsonVal.num dur) ∧
        alookup ls "summary" = some (JsonVal.str su) ∧
        alookup ls "commits" = some (JsonVal.arr commits)) ∧
      alookup d "currentWork" = some (JsonVal.obj
        [("type", JsonVal.str "general"), ("plan", JsonVal.null),
         ("planTask", JsonVal.null), ("debugIssue", JsonVal.null),
         ("debugPhase", JsonVal.null)]) := by
  have hfs : alookup (end_session w path sid dur su commits ns).fs path =
      some (aset (aset (aset (_load_progress w path).2 "lastSession"
        (JsonVal.obj (lastSessionDict w.today dur su
          ((alookup w.sessionEvents sid).getD [] ++
            [create_event w.now EventType.SESSION_END [("duration", JsonVal.num dur)]])
          commits ns)))
        "currentWork" (JsonVal.obj generalWorkDict))
        "lastUpdated" (JsonVal.str w.now)) := by
    simp [end_session, _save_progress]
  refine ⟨_, hfs, ⟨lastSessionDict w.today dur su
      ((alookup w.sessionEvents sid).getD [] ++
        [create_event w.now EventType.SESSION_END [("duration", JsonVal.num dur)]])
      commits ns, ?_, ?_, ?_, ?_⟩, ?_⟩
  · rw [alookup_aset_ne _ _ _ _ (by decide), alookup_aset_ne _ _ _ _ (by decide)]
    exact alookup_aset_self _ _ _
  · simp [lastSessionDict]
  · simp [lastSessionDict]
  · simp [lastSessionDict]
  · rw [alookup_aset_ne _ _ _ _ (by decide), alookup_aset_self]
    rfl

/-- C2: on a fresh path (no backing file), `start_session` succeeds, and a
following `end_session` with duration 30, summary "S" and commits `[c]`
persists a record whose `lastSession` has `duration_minutes = 30`,
`summary = "S"` and `commits = [c]`, and whose `currentWork` is reset to type
"general" with every payload field (`plan`, `planTask`, `debugIssue`,
`debugPhase`) null. -/
theorem C2_session_lifecycle (w : World) (path : FsPath) (sid : String) (c : JsonVal)
    (h : alookup w.fs path = none) :
    ∃ w₁, start_session w path sid = some w₁ ∧
      ∃ d, alookup (end_session w₁ path sid 30 "S" [c] none).fs path = some d ∧
        (∃ ls, alookup d "lastSession" = some (JsonVal.obj ls) ∧
          alookup ls "duration_minutes" = some (JsonVal.num 30) ∧
          alookup ls "summary" = some (JsonVal.str "S") ∧
          alookup ls "commits" = some (JsonVal.arr [c])) ∧
        alookup d "currentWork" = some (JsonVal.obj
          [("type", JsonVal.str "general"), ("plan", JsonVal.null),
           ("planTask", JsonVal.null), ("debugIssue", JsonVal.null),
           ("debugPhase", JsonVal.null)]) := by
  have hsome : ∃ w₁, start_session w path sid = some w₁ := by
    simp [start_session, _load_progress, h, create_empty_progress]
  obtain ⟨w₁, hw₁⟩ := hsome
  exact ⟨w₁, hw₁, end_session_pins w₁ path sid 30 "S" [c] none⟩

/-- Witness for C2 on an empty world. -/
theorem C2_session_lifecycle_witness :
    ∃ w₁, start_session ⟨[], [], "T", "D"⟩ ["p", "f.json"] "s" = some w₁ ∧
      ∃ d, alookup (end_session w₁ ["p", "f.json"] "s" 30 "S"
          [JsonVal.str "c1"] none).fs ["p", "f.json"] = some d ∧
        (∃ ls, alookup d "lastSession" = some (JsonVal.obj ls) ∧
          alookup ls "duration_minutes" = some (JsonVal.num 30) ∧
          alookup ls "summary" = some (JsonVal.str "S") ∧
          alookup ls "commits" = some (JsonVal.arr [JsonVal.str "c1"])) ∧
        alookup d "currentWork" = some (JsonVal.obj
          [("type", JsonVal.str "general"), ("plan", JsonVal.null),
           ("planTask", JsonVal.null), ("debugIssue", JsonVal.null),
           ("debugPhase", JsonVal.null)]) :=
  C2_session_lifecycle ⟨[], [], "T", "D"⟩ ["p", "f.json"] "s" (JsonVal.str "c1") rfl

/-! ### C3: event ordering through a session -/

@[simp] theorem save_now (w : World) (path : FsPath) (data : Dict) :
    (_save_progress w path data).now = w.now := rfl

@[simp] theorem save_today (w : World) (path : FsPath) (data : Dict) :
    (_save_progress w path data).today = w.today := rfl

@[simp] theorem save_sessionEvents (w : World) (path : FsPath) (data : Dict) :
    (_save_progress w path data).sessionEvents = w.sessionEvents := rfl

/-- `end_session` flushes the in-memory buffer: the persisted
`lastSession.events` is the serialized buffer followed by the
`session_end` event. -/
theorem end_session_events (w : World) (path : FsPath) (sid : String)
    (dur : Int) (su : String) (commits : List JsonVal) (ns : Option (List String))
    (buf : List ProgressEvent)
    (hbuf : alookup w.sessionEvents sid = some buf) :
    ∃ d, alookup (end_session w path sid dur su commits ns).fs path = some d ∧
      ∃ ls, alookup d "lastSession" = some (JsonVal.obj ls) ∧
        alookup ls "events" = some (JsonVal.arr
          ((buf ++ [create_event w.now EventType.SESSION_END
            [("duration", JsonVal.num dur)]]).map
            (fun e => JsonVal.obj e.to_dict))) := by
  have hfs : alookup (end_session w path sid dur su commits ns).fs path =
      some (aset (aset (aset (_load_progress w path).2 "lastSession"
        (JsonVal.obj (lastSessionDict w.today dur su
          (buf ++ [create_event w.now EventType.SESSION_END [("duration", JsonVal.num dur)]])
          commits ns)))
        "currentWork" (JsonVal.obj generalWorkDict))
        "lastUpdated" (JsonVal.str w.now)) := by
    simp [end_session, _save_progress, hbuf]
  refine ⟨_, hfs, ⟨lastSessionDict w.today dur su
      (buf ++ [create_event w.now EventType.SESSION_END [("duration", JsonVal.num dur)]])
      commits ns, ?_, ?_⟩⟩
  · rw [alookup_aset_ne _ _ _ _ (by decide), alookup_aset_ne _ _ _ _ (by decide)]
    exact alookup_aset_self _ _ _
  · simp [lastSessionDict]

/-- C3: after `start_session` and two `add_event` calls with events E1 then
E2, `end_session` persists `lastSession.events` as exactly the four events
`[session_start, E1, E2, session_end]`: the auto-inserted `session_start` is
first, the `session_end` (carrying the duration payload) is last, and the
added events keep their insertion order in between. -/
theorem C3_event_order (w w₁ : World) (path p₂ p₃ : FsPath) (sid : String)
    (t₁ t₂ : EventType) (k₁ k₂ : Dict) (dur : Int) (su : String)
    (commits : List JsonVal) (ns : Option (List String))
    (hs : start_session w path sid = some w₁) :
    ∃ d, alookup (end_session (add_event (add_event w₁ p₂ sid t₁ k₁) p₃ sid t₂ k₂)
        path sid dur su commits ns).fs path = some d ∧
      ∃ ls, alookup d "lastSession" = some (JsonVal.obj ls) ∧
        alookup ls "events" = some (JsonVal.arr
          [JsonVal.obj [("type", JsonVal.str "session_start"),
             ("timestamp", JsonVal.str w.now)],
           JsonVal.obj (create_event w.now t₁ k₁).to_dict,
           JsonVal.obj (create_event w.now t₂ k₂).to_dict,
           JsonVal.obj [("type", JsonVal.str "session_end"),
             ("timestamp", JsonVal.str w.now), ("duration", JsonVal.num dur)]]) := by
  have hkey : w₁.now = w.now ∧ w₁.sessionEvents =
      aset w.sessionEvents sid [create_event w.now EventType.SESSION_START []] := by
    simp only [start_session] at hs
    split at hs
    · rename_i cw heq
      have hw := Option.some.inj hs
      subst hw
      constructor
      · simp
      · simp [_save_progress]
    · cases hs
  obtain ⟨hnow, hse⟩ := hkey
  have hbuf : alookup (add_event (add_event w₁ p₂ sid t₁ k₁) p₃ sid t₂ k₂).sessionEvents sid =
      some [create_event w.now EventType.SESSION_START [],
            create_event w.now t₁ k₁, create_event w.now t₂ k₂] := by
    simp [add_event, hse, hnow]
  have hnow₃ : (add_event (add_event w₁ p₂ sid t₁ k₁) p₃ sid t₂ k₂).now = w.now := by
    simp [add_event, hnow]
  obtain ⟨d, hd, ls, hls, hev⟩ :=
    end_session_events _ path sid dur su commits ns _ hbuf
  refine ⟨d, hd, ls, hls, ?_⟩
  rw [hev, hnow₃]
  simp [create_event, ProgressEvent.to_dict, EventType.value, aset]

/-- Witness for C3 on an empty world: start, add a checkpoint and a
plan-started event, end; the four events appear in order. -/
theorem C3_event_order_witness :
    ∃ w₁, start_session ⟨[], [], "T", "D"⟩ ["p", "f.json"] "s" = some w₁ ∧
      ∃ d, alookup (end_session
          (add_event (add_event w₁ ["p", "f.json"] "s" EventType.CHECKPOINT [])
            ["p", "f.json"] "s" EventType.PLAN_STARTED [("plan", JsonVal.str "x")])
          ["p", "f.json"] "s" 7 "sum" [] none).fs ["p", "f.json"] = some d ∧
        ∃ ls, alookup d "lastSession" = some (JsonVal.obj ls) ∧
          alookup ls "events" = some (JsonVal.arr
            [JsonVal.obj [("type", JsonVal.str "session_start"),
               ("timestamp", JsonVal.str "T")],
             JsonVal.obj (create_event "T" EventType.CHECKPOINT []).to_dict,
             JsonVal.obj (create_event "T" EventType.PLAN_STARTED
               [("plan", JsonVal.str "x")]).to_dict,
             JsonVal.obj [("type", JsonVal.str "session_end"),
               ("timestamp", JsonVal.str "T"), ("duration", JsonVal.num 7)]]) := by
  obtain ⟨w₁, hs⟩ : ∃ w₁, start_session ⟨[], [], "T", "D"⟩ ["p", "f.json"] "s" = some w₁ := by
    simp [start_session, _load_progress, create_empty_progress]
  exact ⟨w₁, hs, C3_event_order ⟨[], [], "T", "D"⟩ w₁ ["p", "f.json"] ["p", "f.json"]
    ["p", "f.json"] "s" EventType.CHECKPOINT EventType.PLAN_STARTED []
    [("plan", JsonVal.str "x")] 7 "sum" [] none hs⟩

/-! ### C6: progress-file resolution -/

/-- C6: `find_progress_file` returns the file in `cwd` when it exists there;
the parent walk stops — finding nothing — as soon as a directory holding a
`.git` marker is reached (the marker is only a stopping condition, never the
result); in the tree `r/.git`, `r/sub`, with the progress file only under
`r/other/`, resolving from `r/sub` with `create_if_missing = false` returns
absent; and when nothing is found, `create_if_missing = true` creates a fresh
default record directly in `cwd` (not in any ancestor) and returns that path,
while `create_if_missing = false` returns absent. -/
theorem C6_find_progress_file (w : World) (cwd : FsPath) :
    (fsExists w.fs (cwd ++ [PROGRESS_FILENAME]) = true →
      find_progress_file w cwd false = (w, some (cwd ++ [PROGRESS_FILENAME])) ∧
      find_progress_file w cwd true = (w, some (cwd ++ [PROGRESS_FILENAME]))) ∧
    (∀ c cs, fsExists w.fs ((c :: cs) ++ [PROGRESS_FILENAME]) = false →
      fsExists w.fs ((c :: cs) ++ [".git"]) = true →
      findLoop w.fs (c :: cs) = none) ∧
    (fsExists w.fs (cwd ++ [PROGRESS_FILENAME]) = false →
      findLoop w.fs cwd = none →
      find_progress_file w cwd false = (w, none) ∧
      find_progress_file w cwd true =
        ({ w with fs := aset w.fs (cwd ++ [PROGRESS_FILENAME]) (create_empty_progress w.now w.today (pathName cwd)) },
         some (cwd ++ [PROGRESS_FILENAME]))) ∧
    find_progress_file
        ⟨[(["r", ".git"], []), (["r", "other", "project-progress.json"], [])], [], "T", "D"⟩
        ["r", "sub"] false =
      (⟨[(["r", ".git"], []), (["r", "other", "project-progress.json"], [])], [], "T", "D"⟩,
       none) := by
  refine ⟨?_, ?_, ?_, ?_⟩
  · intro h
    constructor <;> simp [find_progress_file, h]
  · intro c cs h1 h2
    simp only [List.cons_append] at h1 h2
    rw [findLoop]
    simp [h1, h2]
  · intro h1 h2
    constructor <;> simp [find_progress_file, h1, h2]
  · simp [find_progress_file, findLoop, fsExists, PROGRESS_FILENAME]

/-- Witness for C6: in a tree whose only file is `a/project-progress.json`,
resolving from `a` finds it; resolving from a `.git`-rooted bare tree with
`create_if_missing = true` creates the file in `cwd`. -/
theorem C6_find_progress_file_witness :
    find_progress_file
        ⟨[(["a", "project-progress.json"], [("k", JsonVal.null)])], [], "T", "D"⟩
        ["a"] false =
      (⟨[(["a", "project-progress.json"], [("k", JsonVal.null)])], [], "T", "D"⟩,
       some ["a", "project-progress.json"]) ∧
    find_progress_file ⟨[(["b", ".git"], [])], [], "T", "D"⟩ ["b"] true =
      (⟨aset [(["b", ".git"], [])] ["b", "project-progress.json"]
          (create_empty_progress "T" "D" "b"), [], "T", "D"⟩,
       some ["b", "project-progress.json"]) := by
  constructor
  · have h := (C6_find_progress_file
      ⟨[(["a", "project-progress.json"], [("k", JsonVal.null)])], [], "T", "D"⟩ ["a"]).1
      (by simp [fsExists, PROGRESS_FILENAME])
    simpa [PROGRESS_FILENAME] using h.1
  · have h := (C6_find_progress_file ⟨[(["b", ".git"], [])], [], "T", "D"⟩ ["b"]).2.2.1
      (by simp [fsExists, PROGRESS_FILENAME])
      (by rw [findLoop]; simp [fsExists, PROGRESS_FILENAME])
    simpa [PROGRESS_FILENAME, pathName] using h.2
